import Mathlib

/-!
Verification development for the dashboard-delinquance repository.

The repository is a collection of near-duplicate Streamlit dashboard
scripts.  The logic verified here is the data preparation pipeline:
the crime loader, the commune reference loader, the population loader,
the department deriver and the prepare step (left joins, early filters,
derived rate), together with the refresh utility.

Conventions of the embedding:
  * Python strings are `List Char` (abbreviated `Str`); a pandas cell that
    may be NaN is an `Option` of the cell type.
  * pandas numeric cells are rationals; NaN is `none`.  Division results
    that pandas represents as infinities or NaN are modelled by the
    explicit value type `PVal`, so that null (absent) and non-finite
    (present but not a number) outputs are distinguished exactly as the
    dashboard distinguishes them.
  * `pd.to_numeric(..., errors="coerce")` is modelled by `parseNum`, a
    decimal parser accepting the forms digits and digits.digits with an
    optional leading minus sign, returning `none` on anything else.
  * A pandas left merge is `leftJoin`: each left row is matched against
    all right rows; with no match the right fields are null.
-/

abbrev Str := List Char

/-- Numeric value of a list of decimal digit characters, as `foldl`
accumulation (the usual positional reading). -/
def natOfDigits (l : Str) : Nat := l.foldl (fun a ch => 10 * a + (ch.toNat - 48)) 0

/-- Unsigned decimal parser: digits, or digits dot digits.  The value of
a decimal ip.fp is the integer reading of the concatenation divided by
ten to the number of fractional digits. -/
def parseUnsigned (s : Str) : Option ℚ :=
  match s.dropWhile Char.isDigit with
  | [] => if s = [] then none else some (mkRat (natOfDigits s) 1)
  | '.' :: fp =>
    let ip := s.takeWhile Char.isDigit
    if ip = [] then none
    else if fp = [] then none
    else if fp.all Char.isDigit then
      some (mkRat (natOfDigits ip * 10 ^ fp.length + natOfDigits fp) (10 ^ fp.length))
    else none
  | _ => none

/-- Model of numeric coercion of one cell: an optional minus sign followed
by an unsigned decimal; any other content coerces to null. -/
def parseNum (s : Str) : Option ℚ :=
  if s.head? = some '-' then (parseUnsigned s.tail).map (fun q => -q)
  else parseUnsigned s

/-- Model of `str.replace(",", ".")` on a single cell. -/
def commaToDot (s : Str) : Str := s.map (fun ch => if ch = ',' then '.' else ch)

/-- Model of `str.zfill(w)`: left pad with zeros to width `w`. -/
def zfill (w : Nat) (s : Str) : Str := List.replicate (w - s.length) '0' ++ s

/-- Model of `str.strip()`: remove leading and trailing whitespace. -/
def pyStrip (s : Str) : Str :=
  ((s.dropWhile Char.isWhitespace).reverse.dropWhile Char.isWhitespace).reverse

/-- Rational multiplication written through `Rat.divInt` so that concrete
instances evaluate by kernel reduction; proven equal to `*` below. -/
def ratMul (a b : ℚ) : ℚ := Rat.divInt (a.num * b.num) ((a.den : Int) * (b.den : Int))

/-- Rational division written through `Rat.divInt` so that concrete
instances evaluate by kernel reduction; proven equal to `/` below. -/
def ratDiv (a b : ℚ) : ℚ := Rat.divInt (a.num * (b.den : Int)) ((a.den : Int) * b.num)

/-- A present (non-null) pandas float value: either a number or one of the
non-finite floats that division can produce. -/
inductive PVal where
  | num (q : ℚ)
  | posInf
  | negInf
  | nan
deriving DecidableEq, Repr

/-- pandas elementwise division on present floats, including the
division-by-zero behaviour: positive over zero is +inf, negative over zero
is -inf, zero over zero is NaN. -/
def pdDiv (a b : ℚ) : PVal :=
  if b = 0 then (if 0 < a then PVal.posInf else if a < 0 then PVal.negInf else PVal.nan)
  else PVal.num (ratDiv a b)

/-- pandas multiplication of a present float by a positive constant. -/
def pdMulPos (v : PVal) (c : ℚ) : PVal :=
  match v with
  | PVal.num q => PVal.num (ratMul q c)
  | PVal.posInf => PVal.posInf
  | PVal.negInf => PVal.negInf
  | PVal.nan => PVal.nan

/-- The raw rate column `(nombre / Population) * 1000`, with null (NaN)
operands propagating to null. -/
def rawRate (nombre Population : Option ℚ) : Option PVal :=
  match nombre, Population with
  | some a, some b => some (pdMulPos (pdDiv a b) 1000)
  | _, _ => none

/-- The masking assignment of app-5:
`df.loc[df.Population.isna() | (df.Population <= 0), col] = pd.NA`. -/
def maskRate (Population : Option ℚ) (t : Option PVal) : Option PVal :=
  match Population with
  | none => none
  | some p => if p ≤ 0 then none else t

/-- One row of the crime table after loading (app-5 `load_crime_data`):
string code, coerced year and count, optional source-provided rate. -/
structure CrimeRow where
  CODGEO : Option Str
  annee : Option ℚ
  indicateur : Option Str
  nombre : Option ℚ
  taux : Option ℚ
deriving DecidableEq, Repr

/-- One row of the commune reference table (`v_commune_2025.csv`). -/
structure RefRow where
  CODGEO : Option Str
  Commune : Option Str
deriving DecidableEq, Repr

/-- One row of the long-format population table. -/
structure PopRow where
  CODGEO : Option Str
  annee : Int
  Population : Option ℚ
deriving DecidableEq, Repr

/-- Crime row with the joined commune name. -/
structure NamedRow where
  crime : CrimeRow
  Commune : Option Str
deriving DecidableEq, Repr

/-- Named crime row with the derived department column. -/
structure DepRow where
  base : NamedRow
  DEP : Option Str
deriving DecidableEq, Repr

/-- Department-annotated row with the joined population. -/
structure PopJoinedRow where
  row : DepRow
  Population : Option ℚ
deriving DecidableEq, Repr

/-- Final enriched record of the app-5 pipeline. -/
structure EnrichedRow where
  joined : PopJoinedRow
  taux_calcule : Option PVal
deriving DecidableEq, Repr

/-- Named crime row with joined population but no department yet
(the app.py and app-4 variants join population before deriving DEP). -/
structure NPopRow where
  base : NamedRow
  Population : Option ℚ
deriving DecidableEq, Repr

/-- Final row of the app.py and app-4 variants. -/
structure V4Row where
  np : NPopRow
  DEP : Option Str
  taux : Option PVal
deriving DecidableEq, Repr

/-- The department deriver of app-5 (`derive_dep`).  A missing cell models
a non-string input; strings shorter than two characters give null. -/
def derive_dep : Option Str → Option Str
  | none => none
  | some code =>
    if code.length < 2 then none
    else if List.isPrefixOf ("97".toList) code || List.isPrefixOf ("98".toList) code then
      some (code.take 3)
    else if code.take 2 == ("2A".toList) || code.take 2 == ("2B".toList) then
      some (code.take 2)
    else some (code.take 2)

/-- The vectorized department computation of app.py and app-4: take two
characters, overwrite with three for codes starting 97 or 98, and
overwrite a resulting "20" with three characters. -/
def depV4 : Option Str → Option Str
  | none => none
  | some c =>
    let d0 := c.take 2
    let d1 := if List.isPrefixOf ("97".toList) c || List.isPrefixOf ("98".toList) c
              then c.take 3 else d0
    some (if d1 = ("20".toList) then c.take 3 else d1)

/-- The department filter predicate of app-4: prefix matching on the raw
commune code, branching on the shape of the chosen department. -/
def v4DepPred (d : Str) : Option Str → Bool
  | none => false
  | some c =>
    if List.isPrefixOf ("97".toList) d || List.isPrefixOf ("98".toList) d then
      List.isPrefixOf d c
    else if List.isPrefixOf ("20".toList) d then List.isPrefixOf d c
    else c.take 2 == d

/-- Join key comparison: two cells match only when both are present and
equal (pandas NaN keys never match). -/
def keyMatch : Option Str → Option Str → Bool
  | some a, some b => a == b
  | _, _ => false

/-- The rows a single left row contributes to a left merge: one row per
matching right row, or a single row with null right fields. -/
def joinOne (m : α → β → Bool) (c : α → Option β → γ) (r : List β) (a : α) : List γ :=
  match r.filter (m a) with
  | [] => [c a none]
  | ms => ms.map (fun b => c a (some b))

/-- pandas left merge over lists of rows. -/
def leftJoin (m : α → β → Bool) (c : α → Option β → γ) (l : List α) (r : List β) : List γ :=
  l.flatMap (joinOne m c r)

/-- Left merge of the crime table with the commune reference on the code. -/
def mergeRef (crime : List CrimeRow) (ref : List RefRow) : List NamedRow :=
  leftJoin (fun cr r => keyMatch cr.CODGEO r.CODGEO)
    (fun cr or => ⟨cr, or.bind RefRow.Commune⟩) crime ref

/-- DEP column assignment of app-5. -/
def addDep (n : NamedRow) : DepRow := ⟨n, derive_dep n.crime.CODGEO⟩

/-- Population join key of the app-5 pipeline: code and year both match. -/
def popMatch (r : DepRow) (p : PopRow) : Bool :=
  keyMatch r.base.crime.CODGEO p.CODGEO && r.base.crime.annee == some ((p.annee : Int) : ℚ)

/-- Left merge with the population table on (code, year). -/
def mergePop (l : List DepRow) (pop : List PopRow) : List PopJoinedRow :=
  leftJoin popMatch (fun a op => ⟨a, op.bind PopRow.Population⟩) l pop

/-- Population join for the variants that join before deriving DEP. -/
def popMatchN (n : NamedRow) (p : PopRow) : Bool :=
  keyMatch n.crime.CODGEO p.CODGEO && n.crime.annee == some ((p.annee : Int) : ℚ)

/-- Left merge with population over plain named rows. -/
def mergePopN (l : List NamedRow) (pop : List PopRow) : List NPopRow :=
  leftJoin popMatchN (fun a op => ⟨a, op.bind PopRow.Population⟩) l pop

/-- Year filter predicate: `crime["annee"] == annee_choice`. -/
def yearPred (y : ℚ) (r : DepRow) : Bool := r.base.crime.annee == some y

/-- Commune filter predicate: `crime["Commune"].isin(communes_choice)`;
a null name is never in the chosen set. -/
def communePred (cs : List Str) (r : DepRow) : Bool :=
  match r.base.Commune with
  | some nm => cs.contains nm
  | none => false

/-- Department filter predicate of app-5: `crime["DEP"] == dep_choice`. -/
def depPred (d : Str) (r : DepRow) : Bool := r.DEP == some d

/-- Conditional year filter: skipped when `include_all_years` is true or no
year was chosen (`if not include_all_years and annee_choice is not None`). -/
def condYearFilter (includeAll : Bool) (y : Option ℚ) (l : List DepRow) : List DepRow :=
  match includeAll, y with
  | false, some v => l.filter (yearPred v)
  | _, _ => l

/-- Conditional commune filter: skipped for `None` and for an empty list,
matching Python truthiness of `if communes_choice:`. -/
def condCommuneFilter (cs : Option (List Str)) (l : List DepRow) : List DepRow :=
  match cs with
  | some (c :: rest) => l.filter (communePred (c :: rest))
  | _ => l

/-- Conditional department filter: skipped for `None` and for the empty
string, matching Python truthiness of `if dep_choice:`. -/
def condDepFilter (d : Option Str) (l : List DepRow) : List DepRow :=
  match d with
  | some (c :: rest) => l.filter (depPred (c :: rest))
  | _ => l

/-- The early-filter block of app-5 `prepare_data`: year, then communes,
then department. -/
def applyFilters (y : Option ℚ) (cs : Option (List Str)) (d : Option Str)
    (includeAll : Bool) (l : List DepRow) : List DepRow :=
  condDepFilter d (condCommuneFilter cs (condYearFilter includeAll y l))

/-- Rate assignment of app-5: raw division then the null mask. -/
def addRate (j : PopJoinedRow) : EnrichedRow :=
  ⟨j, maskRate j.Population (rawRate j.row.base.crime.nombre j.Population)⟩

/-- The app-5 data preparation pipeline `prepare_data`: join commune names,
derive DEP, apply the early filters, join population on the filtered
subset, compute the masked rate.  The three source tables are passed as
arguments in place of the cached file loads. -/
def prepare_data (crime : List CrimeRow) (ref : List RefRow) (pop : List PopRow)
    (annee_choice : Option ℚ) (communes_choice : Option (List Str))
    (dep_choice : Option Str) (include_all_years : Bool) : List EnrichedRow :=
  (mergePop
    (applyFilters annee_choice communes_choice dep_choice include_all_years
      ((mergeRef crime ref).map addDep)) pop).map addRate

/-- Year filter over already population-joined rows. -/
def condYearFilterJ (includeAll : Bool) (y : Option ℚ) (l : List PopJoinedRow) :
    List PopJoinedRow :=
  match includeAll, y with
  | false, some v => l.filter (fun j => yearPred v j.row)
  | _, _ => l

/-- Commune filter over already population-joined rows. -/
def condCommuneFilterJ (cs : Option (List Str)) (l : List PopJoinedRow) : List PopJoinedRow :=
  match cs with
  | some (c :: rest) => l.filter (fun j => communePred (c :: rest) j.row)
  | _ => l

/-- Department filter over already population-joined rows. -/
def condDepFilterJ (d : Option Str) (l : List PopJoinedRow) : List PopJoinedRow :=
  match d with
  | some (c :: rest) => l.filter (fun j => depPred (c :: rest) j.row)
  | _ => l

/-- Modelled from the spec: the comparison variant of the pipeline that
joins population to all crime rows first and applies the same year,
commune and department filters afterwards, then computes the rate. -/
def prepare_data_late (crime : List CrimeRow) (ref : List RefRow) (pop : List PopRow)
    (annee_choice : Option ℚ) (communes_choice : Option (List Str))
    (dep_choice : Option Str) (include_all_years : Bool) : List EnrichedRow :=
  (condDepFilterJ dep_choice
    (condCommuneFilterJ communes_choice
      (condYearFilterJ include_all_years annee_choice
        (mergePop ((mergeRef crime ref).map addDep) pop)))).map addRate

/-- The app-4 `prepare_data`: name join, year filter (no all-years flag),
commune filter, prefix-based department filter, population join, then the
vectorized DEP column and the unmasked rate. -/
def prepare_data_v4 (crime : List CrimeRow) (ref : List RefRow) (pop : List PopRow)
    (annee_choice : Option ℚ) (communes_choice : Option (List Str))
    (dep_choice : Option Str) : List V4Row :=
  let c1 := mergeRef crime ref
  let c2 := match annee_choice with
            | some y => c1.filter (fun n => n.crime.annee == some y)
            | none => c1
  let c3 := match communes_choice with
            | some (c :: rest) =>
                c2.filter (fun n =>
                  match n.Commune with
                  | some nm => (c :: rest).contains nm
                  | none => false)
            | _ => c2
  let c4 := match dep_choice with
            | some (c :: rest) => c3.filter (fun n => v4DepPred (c :: rest) n.crime.CODGEO)
            | _ => c3
  (mergePopN c4 pop).map
    (fun j => ⟨j, depV4 j.base.crime.CODGEO, rawRate j.base.crime.nombre j.Population⟩)

/-- The app.py `prepare_data`: no filter arguments; name join, population
join over all rows, vectorized DEP, and the unmasked rate of line 104. -/
def prepare_data_app1 (crime : List CrimeRow) (ref : List RefRow) (pop : List PopRow) :
    List V4Row :=
  (mergePopN (mergeRef crime ref) pop).map
    (fun j => ⟨j, depV4 j.base.crime.CODGEO, rawRate j.base.crime.nombre j.Population⟩)

/-- Result of mapping a fallible per-row transform over a table; any
failing row aborts the whole load (the behaviour of a raising `astype`). -/
def optMapList (f : a1 -> Option b1) : List a1 -> Option (List b1)
  | [] => some []
  | x :: xs =>
    match f x, optMapList f xs with
    | some y, some ys => some (y :: ys)
    | _, _ => none

/-- One raw row of the crime source file as read with `dtype=str`. -/
structure RawCrimeRow where
  CODGEO : Option Str
  annee : Option Str
  indicateur : Option Str
  nombre : Option Str
  taux : Option Str
deriving DecidableEq, Repr

/-- Per-row transform of the app.py crime loader: coerce year and count to
numbers with failures becoming null, and parse the rate after replacing a
comma decimal separator by a period; an unparseable present rate raises
(the `astype(float)` call), modelled as a failing load. -/
def loadCrimeRow (r : RawCrimeRow) : Option CrimeRow :=
  match r.taux with
  | none => some ⟨r.CODGEO, r.annee.bind parseNum, r.indicateur, r.nombre.bind parseNum, none⟩
  | some s =>
    (parseNum (commaToDot s)).map
      (fun q => ⟨r.CODGEO, r.annee.bind parseNum, r.indicateur, r.nombre.bind parseNum, some q⟩)

/-- The app.py Crime Event Loader over the raw rows of the source file. -/
def load_crime_data (rows : List RawCrimeRow) : Option (List CrimeRow) :=
  optMapList loadCrimeRow rows

/-- One raw row of the refresh utility input after column normalization. -/
structure RawURow where
  CODGEO : Option Str
  annee : Option Str
  indicateur : Option Str
  nombre : Option Str
deriving DecidableEq, Repr

/-- One typed row written by the refresh utility. -/
structure URow where
  CODGEO : Str
  annee : Option Rat
  indicateur : Option Str
  nombre : Option Rat
deriving DecidableEq, Repr

/-- Model of `astype(str)` on one cell: NaN becomes the string "nan". -/
def pyAstypeStr : Option Str -> Str
  | none => ("nan".toList)
  | some s => s

/-- The typing block of update_crime_data main: numeric coercion of year
and count, string strip of the code. -/
def coerceURow (r : RawURow) : URow :=
  URow.mk (pyStrip (pyAstypeStr r.CODGEO)) (r.annee.bind parseNum) r.indicateur
    (r.nombre.bind parseNum)

/-- The transform of update_crime_data main after column normalization:
type the columns then `dropna(subset=["annee", "nombre"])`. -/
def refresh_main (rows : List RawURow) : List URow :=
  (rows.map coerceURow).filter (fun r => r.annee.isSome && r.nombre.isSome)

/-- One row of the wide-format population spreadsheet, read with
`dtype=str`: identifier cells plus the cell values aligned positionally
with the column-name list. -/
structure WideRow where
  codgeo : Option Str
  libgeo : Option Str
  values : List (Option Str)
deriving DecidableEq, Repr

/-- The wide population columns kept: names starting with the letter p. -/
def pCol (c : Str) : Bool :=
  match c with
  | 'p' :: _ => true
  | [] => false
  | _ :: _ => false

/-- The melt step: one record per row and per kept population column,
carrying the commune code, the column name and the cell value. -/
def meltWide (cols : List Str) (rows : List WideRow) :
    List (Option Str × Str × Option Str) :=
  rows.flatMap (fun r =>
    ((cols.zip r.values).filter (fun cv => pCol cv.1)).map (fun cv => (r.codgeo, cv.1, cv.2)))

/-- Attempted match of the year pattern at the head of the string: the
letter p, then one or more digits, then the literal suffix "_pop". -/
def matchPAt : Str -> Option Nat
  | 'p' :: rest =>
    let ds := rest.takeWhile Char.isDigit
    if ds = [] then none
    else if (rest.dropWhile Char.isDigit).take 4 = ("_pop".toList) then some (natOfDigits ds)
    else none
  | _ => none

/-- Leftmost search for the year pattern, as `str.extract` performs. -/
def extractPYear : Str -> Option Nat
  | [] => none
  | c :: rest =>
    match matchPAt (c :: rest) with
    | some n => some n
    | none => extractPYear rest

/-- Melt plus the typing steps of load_population_local: parse the column
year (a failed extraction makes `astype(int)` raise, failing the load),
add 2000, zero pad the code, coerce the population value. -/
def meltParsed (cols : List Str) (rows : List WideRow) : Option (List PopRow) :=
  optMapList (fun t =>
    (extractPYear t.2.1).map (fun n =>
      PopRow.mk (t.1.map (zfill 5)) (((2000 + n : Nat) : Int)) (t.2.2.bind parseNum)))
    (meltWide cols rows)

/-- Maximum of the year column, as `df["annee"].max()`. -/
def maxAnnee : List PopRow -> Int
  | [] => 0
  | h :: t => t.foldl (fun m r => max m r.annee) h.annee

/-- Integer range `[a, b)` as a list. -/
def rangeInts (a b : Int) : List Int :=
  (List.range (b - a).toNat).map (fun i => a + Int.ofNat i)

/-- One iteration of the extrapolation loop: append a copy of the rows of
the last available year, relabelled to the new year. -/
def extrapStep (maxY : Int) (df : List PopRow) (y : Int) : List PopRow :=
  df ++ (df.filter (fun r => r.annee == maxY)).map (fun r => PopRow.mk r.CODGEO y r.Population)

/-- The app.py wide-format Population Loader: melt, type, then extend the
last available year forward one year at a time up to 2024.  An empty melt
makes the `range(max + 1, 2025)` computation raise on NaN, modelled as a
failing load. -/
def load_population_local (cols : List Str) (rows : List WideRow) : Option (List PopRow) :=
  match meltParsed cols rows with
  | none => none
  | some [] => none
  | some (h :: t) =>
    some ((rangeInts (maxAnnee (h :: t) + 1) 2025).foldl (extrapStep (maxAnnee (h :: t))) (h :: t))

def c1Crime : CrimeRow := ⟨some ("75056".toList), some 2020, some ("vols".toList), some 5, none⟩

def c1Pop : PopRow := ⟨some ("75056".toList), 2020, some 2000⟩

def c1Row : EnrichedRow :=
  ⟨⟨⟨⟨c1Crime, none⟩, some ("75".toList)⟩, some 2000⟩, some (PVal.num (ratMul (ratDiv 5 2000) 1000))⟩

def c1CexPop : PopRow := ⟨some ("75056".toList), 2020, some 0⟩

def c4Crime : CrimeRow := ⟨some ("97123".toList), some 2020, some ("vols".toList), some 3, none⟩

def c4aCrime : CrimeRow := ⟨some ("2A004".toList), some 2020, some ("vols".toList), some 2, none⟩

def c8Raw : RawCrimeRow :=
  ⟨some ("75056".toList), some ("2020".toList), some ("vols".toList), some ("5".toList),
    some ("3,5".toList)⟩

def c8Out : CrimeRow :=
  ⟨some ("75056".toList), some (mkRat 2020 1), some ("vols".toList), some (mkRat 5 1),
    some (mkRat 35 10)⟩

def c10Bad : RawURow :=
  ⟨some ("75056".toList), some ("abcd".toList), some ("vols".toList), some ("5".toList)⟩

def c7Cols : List Str := [("p23_pop".toList)]

def c7Rows : List WideRow := [⟨some ("1".toList), none, [some ("100".toList)]⟩]

def c7Out : List PopRow :=
  [⟨some ("00001".toList), 2023, some (mkRat 100 1)⟩,
   ⟨some ("00001".toList), 2024, some (mkRat 100 1)⟩]

theorem ratMul_eq (a b : ℚ) : ratMul a b = a * b := by
  rw [ratMul, Rat.divInt_eq_div]
  push_cast
  conv_rhs => rw [← Rat.num_div_den a, ← Rat.num_div_den b]
  have ha : ((a.den : ℚ)) ≠ 0 := by exact_mod_cast a.den_nz
  have hb : ((b.den : ℚ)) ≠ 0 := by exact_mod_cast b.den_nz
  field_simp

theorem ratDiv_eq (a b : ℚ) : ratDiv a b = a / b := by
  by_cases hb : b = 0
  · subst hb
    rw [ratDiv]
    norm_num
  · rw [ratDiv, Rat.divInt_eq_div]
    push_cast
    conv_rhs => rw [← Rat.num_div_den a, ← Rat.num_div_den b]
    have ha : ((a.den : ℚ)) ≠ 0 := by exact_mod_cast a.den_nz
    have hbd : ((b.den : ℚ)) ≠ 0 := by exact_mod_cast b.den_nz
    have hbn : ((b.num : ℚ)) ≠ 0 := by exact_mod_cast Rat.num_ne_zero.mpr hb
    field_simp

theorem mem_joinOne {m : a1 -> b1 -> Bool} {c : a1 -> Option b1 -> g1} {r : List b1}
    {a : a1} {g : g1} (h : g ∈ joinOne m c r a) : ∃ ob, g = c a ob := by
  unfold joinOne at h
  rcases hf : r.filter (m a) with _ | ⟨b, bs⟩
  · rw [hf] at h
    simp at h
    exact ⟨none, h⟩
  · rw [hf] at h
    simp at h
    rcases h with h | ⟨b2, _, h⟩
    · exact ⟨some b, by simp [h]⟩
    · exact ⟨some b2, by simp [h]⟩

theorem joinOne_exists (m : a1 -> b1 -> Bool) (c : a1 -> Option b1 -> g1) (r : List b1)
    (a : a1) : ∃ ob, c a ob ∈ joinOne m c r a := by
  unfold joinOne
  rcases hf : r.filter (m a) with _ | ⟨b, bs⟩
  · exact ⟨none, by simp⟩
  · exact ⟨some b, by simp⟩

theorem mem_leftJoin {m : a1 -> b1 -> Bool} {c : a1 -> Option b1 -> g1} {l : List a1}
    {r : List b1} {g : g1} (h : g ∈ leftJoin m c l r) : ∃ a ∈ l, ∃ ob, g = c a ob := by
  unfold leftJoin at h
  obtain ⟨a, ha, hg⟩ := List.mem_flatMap.1 h
  exact ⟨a, ha, mem_joinOne hg⟩

theorem leftJoin_exists {m : a1 -> b1 -> Bool} {c : a1 -> Option b1 -> g1} {l : List a1}
    {r : List b1} {a : a1} (h : a ∈ l) : ∃ ob, c a ob ∈ leftJoin m c l r := by
  obtain ⟨ob, hob⟩ := joinOne_exists m c r a
  exact ⟨ob, List.mem_flatMap.2 ⟨a, h, hob⟩⟩

theorem filter_flatMap (g : a1 -> List b1) (p : a1 -> Bool) (q : b1 -> Bool) (l : List a1)
    (h : ∀ x : a1, ∀ y ∈ g x, q y = p x) :
    (l.filter p).flatMap g = (l.flatMap g).filter q := by
  induction l with
  | nil => rfl
  | cons a t ih =>
    by_cases hpa : p a = true
    · rw [List.filter_cons_of_pos hpa]
      rw [List.flatMap_cons, List.flatMap_cons, List.filter_append, ih]
      have : (g a).filter q = g a := List.filter_eq_self.2 (fun y hy => (h a y hy).trans hpa)
      rw [this]
    · rw [List.filter_cons_of_neg hpa]
      rw [List.flatMap_cons, List.filter_append, ih]
      have : (g a).filter q = [] := by
        apply List.filter_eq_nil_iff.2
        intro y hy
        rw [h a y hy]
        simpa using hpa
      rw [this, List.nil_append]

theorem leftJoin_filter {m : a1 -> b1 -> Bool} {c : a1 -> Option b1 -> g1} {l : List a1}
    {r : List b1} (p : a1 -> Bool) (q : g1 -> Bool)
    (hpq : ∀ (a : a1) (ob : Option b1), q (c a ob) = p a) :
    leftJoin m c (l.filter p) r = (leftJoin m c l r).filter q := by
  unfold leftJoin
  apply filter_flatMap
  intro x y hy
  obtain ⟨ob, rfl⟩ := mem_joinOne hy
  exact hpq x ob

theorem optMapList_length {f : a1 -> Option b1} :
    ∀ {l : List a1} {out : List b1}, optMapList f l = some out -> out.length = l.length := by
  intro l
  induction l with
  | nil =>
    intro out h
    simp [optMapList] at h
    simp [← h]
  | cons x xs ih =>
    intro out h
    unfold optMapList at h
    rcases hx : f x with _ | y
    · rw [hx] at h
      simp at h
    · rw [hx] at h
      rcases hxs : optMapList f xs with _ | ys
      · rw [hxs] at h
        simp at h
      · rw [hxs] at h
        simp at h
        rw [← h]
        simp [ih hxs]

theorem optMapList_mem {f : a1 -> Option b1} :
    ∀ {l : List a1} {out : List b1}, optMapList f l = some out ->
      ∀ x ∈ l, ∃ y, f x = some y ∧ y ∈ out := by
  intro l
  induction l with
  | nil =>
    intro out _ x hx
    simp at hx
  | cons z xs ih =>
    intro out h x hx
    unfold optMapList at h
    rcases hz : f z with _ | y
    · rw [hz] at h
      simp at h
    · rw [hz] at h
      rcases hxs : optMapList f xs with _ | ys
      · rw [hxs] at h
        simp at h
      · rw [hxs] at h
        simp at h
        rcases List.mem_cons.1 hx with hxz | hxs2
        · subst hxz
          exact ⟨y, hz, by rw [← h]; simp⟩
        · obtain ⟨w, hw, hwm⟩ := ih hxs x hxs2
          exact ⟨w, hw, by rw [← h]; simp [hwm]⟩

theorem mem_condYearFilter {includeAll : Bool} {y : Option ℚ} {l : List DepRow} {r : DepRow}
    (h : r ∈ condYearFilter includeAll y l) : r ∈ l := by
  unfold condYearFilter at h
  rcases includeAll with _ | _ <;> rcases y with _ | v <;> simp_all [List.mem_filter]

theorem mem_condCommuneFilter {cs : Option (List Str)} {l : List DepRow} {r : DepRow}
    (h : r ∈ condCommuneFilter cs l) : r ∈ l := by
  unfold condCommuneFilter at h
  rcases cs with _ | ⟨_ | ⟨c, rest⟩⟩ <;> simp_all [List.mem_filter]

theorem mem_condDepFilter {d : Option Str} {l : List DepRow} {r : DepRow}
    (h : r ∈ condDepFilter d l) : r ∈ l := by
  unfold condDepFilter at h
  rcases d with _ | ⟨_ | ⟨c, rest⟩⟩ <;> simp_all [List.mem_filter]

theorem mem_applyFilters {y : Option ℚ} {cs : Option (List Str)} {d : Option Str}
    {b : Bool} {l : List DepRow} {r : DepRow} (h : r ∈ applyFilters y cs d b l) : r ∈ l :=
  mem_condYearFilter (mem_condCommuneFilter (mem_condDepFilter h))

theorem mergePop_filter (p : DepRow -> Bool) (l : List DepRow) (pop : List PopRow) :
    mergePop (l.filter p) pop = (mergePop l pop).filter (fun j => p j.row) := by
  unfold mergePop
  exact leftJoin_filter p (fun j : PopJoinedRow => p j.row) (fun _ _ => rfl)

theorem mergePop_condYearFilter (b : Bool) (y : Option ℚ) (l : List DepRow)
    (pop : List PopRow) :
    mergePop (condYearFilter b y l) pop = condYearFilterJ b y (mergePop l pop) := by
  rcases b with _ | _ <;> rcases y with _ | v <;>
    simp [condYearFilter, condYearFilterJ, mergePop_filter]

theorem mergePop_condCommuneFilter (cs : Option (List Str)) (l : List DepRow)
    (pop : List PopRow) :
    mergePop (condCommuneFilter cs l) pop = condCommuneFilterJ cs (mergePop l pop) := by
  rcases cs with _ | ⟨_ | ⟨c, rest⟩⟩ <;>
    simp [condCommuneFilter, condCommuneFilterJ, mergePop_filter]

theorem mergePop_condDepFilter (d : Option Str) (l : List DepRow) (pop : List PopRow) :
    mergePop (condDepFilter d l) pop = condDepFilterJ d (mergePop l pop) := by
  rcases d with _ | ⟨_ | ⟨c, rest⟩⟩ <;>
    simp [condDepFilter, condDepFilterJ, mergePop_filter]

theorem condYearFilter_length_le (b : Bool) (y : Option ℚ) (l : List DepRow) :
    (condYearFilter b y l).length ≤ l.length := by
  rcases b with _ | _ <;> rcases y with _ | v <;>
    simp [condYearFilter, List.length_filter_le]

theorem condCommuneFilter_length_le (cs : Option (List Str)) (l : List DepRow) :
    (condCommuneFilter cs l).length ≤ l.length := by
  rcases cs with _ | ⟨_ | ⟨c, rest⟩⟩ <;>
    simp [condCommuneFilter, List.length_filter_le]

theorem condDepFilter_length_le (d : Option Str) (l : List DepRow) :
    (condDepFilter d l).length ≤ l.length := by
  rcases d with _ | ⟨_ | ⟨c, rest⟩⟩ <;>
    simp [condDepFilter, List.length_filter_le]

theorem applyFilters_length_le (y : Option ℚ) (cs : Option (List Str)) (d : Option Str)
    (b : Bool) (l : List DepRow) : (applyFilters y cs d b l).length ≤ l.length := by
  calc (applyFilters y cs d b l).length
      ≤ (condCommuneFilter cs (condYearFilter b y l)).length := condDepFilter_length_le _ _
    _ ≤ (condYearFilter b y l).length := condCommuneFilter_length_le _ _
    _ ≤ l.length := condYearFilter_length_le _ _ _

/-- C6: the pipeline that applies the year, commune and department filters
before the population join produces exactly the same enriched rows, in the
same order, as the variant joining population to all crime rows first and
filtering afterwards; moreover the early filters never increase the number
of rows entering the population join. -/
theorem early_filter_refinement (crime : List CrimeRow) (ref : List RefRow)
    (pop : List PopRow) (y : Option ℚ) (cs : Option (List Str)) (d : Option Str) (b : Bool) :
    prepare_data crime ref pop y cs d b = prepare_data_late crime ref pop y cs d b
    ∧ ∀ l : List DepRow, (applyFilters y cs d b l).length ≤ l.length := by
  constructor
  · unfold prepare_data prepare_data_late applyFilters
    rw [mergePop_condDepFilter, mergePop_condCommuneFilter, mergePop_condYearFilter]
  · exact fun l => applyFilters_length_le y cs d b l

/-- C5: with include_all_years set, the year argument has no effect on the
output of prepare_data, and the year filtering stage is the identity. -/
theorem include_all_years_ignores_year (crime : List CrimeRow) (ref : List RefRow)
    (pop : List PopRow) (y1 y2 : Option ℚ) (cs : Option (List Str)) (d : Option Str) :
    prepare_data crime ref pop y1 cs d true = prepare_data crime ref pop y2 cs d true
    ∧ ∀ l : List DepRow, condYearFilter true y1 l = l :=
  ⟨rfl, fun _ => rfl⟩

/-- C9: prepare_data is deterministic and idempotent: over unchanged source
tables, two calls with identical arguments give identical output. -/
theorem prepare_data_deterministic (c1 c2 : List CrimeRow) (r1 r2 : List RefRow)
    (p1 p2 : List PopRow) (y : Option ℚ) (cs : Option (List Str)) (d : Option Str)
    (b : Bool) (hc : c1 = c2) (hr : r1 = r2) (hp : p1 = p2) :
    prepare_data c1 r1 p1 y cs d b = prepare_data c2 r2 p2 y cs d b := by
  subst hc
  subst hr
  subst hp
  rfl

theorem prepare_data_deterministic_witness :
    prepare_data [] [] [] (some 2023) none none false
      = prepare_data [] [] [] (some 2023) none none false :=
  prepare_data_deterministic [] [] [] [] [] [] (some 2023) none none false rfl rfl rfl

/-- C3: the reference join never drops a crime row; every filtered row
survives the population join into the output; and the commune code of
every output row comes from the input crime table. -/
theorem left_join_preserves_crime_rows (crime : List CrimeRow) (ref : List RefRow)
    (pop : List PopRow) (y : Option ℚ) (cs : Option (List Str)) (d : Option Str) (b : Bool) :
    (∀ c ∈ crime, ∃ n ∈ mergeRef crime ref, n.crime = c)
    ∧ (∀ r ∈ applyFilters y cs d b ((mergeRef crime ref).map addDep),
        ∃ e ∈ prepare_data crime ref pop y cs d b, e.joined.row = r)
    ∧ (∀ e ∈ prepare_data crime ref pop y cs d b,
        e.joined.row.base.crime.CODGEO ∈ crime.map CrimeRow.CODGEO) := by
  refine ⟨?_, ?_, ?_⟩
  · intro c hc
    obtain ⟨ob, hob⟩ := leftJoin_exists (r := ref) hc
    exact ⟨_, hob, rfl⟩
  · intro r hr
    obtain ⟨op, hop⟩ := leftJoin_exists (r := pop) hr
    refine ⟨addRate ⟨r, op.bind PopRow.Population⟩, ?_, rfl⟩
    unfold prepare_data
    exact List.mem_map.2 ⟨_, hop, rfl⟩
  · intro e he
    unfold prepare_data at he
    obtain ⟨j, hj, rfl⟩ := List.mem_map.1 he
    obtain ⟨r, hrf, op, rfl⟩ := mem_leftJoin hj
    have hr2 : r ∈ (mergeRef crime ref).map addDep := mem_applyFilters hrf
    obtain ⟨n, hn, rfl⟩ := List.mem_map.1 hr2
    obtain ⟨c, hc, ob, rfl⟩ := mem_leftJoin hn
    exact List.mem_map.2 ⟨c, hc, rfl⟩

theorem left_join_preserves_crime_rows_witness :
    (⟨some ("75056".toList), some 2020, some ("vols".toList), some 5, none⟩ : CrimeRow).CODGEO
      ∈ ([⟨some ("75056".toList), some 2020, some ("vols".toList), some 5, none⟩] :
          List CrimeRow).map CrimeRow.CODGEO :=
  (left_join_preserves_crime_rows
      [⟨some ("75056".toList), some 2020, some ("vols".toList), some 5, none⟩] [] []
      none none none false).2.2
    (addRate ⟨addDep ⟨⟨some ("75056".toList), some 2020, some ("vols".toList), some 5,
        none⟩, none⟩, none⟩)
    (by decide)

/-- C1 amended: in the app-5 pipeline, whose rate step masks missing and
non-positive population, the derived rate of every output row is null when
population is null, zero or negative; equals count over population times
1000 when population is positive and the count is present; is null when
the count is null; and is never an infinity or NaN. -/
theorem masked_rate_safe (crime : List CrimeRow) (ref : List RefRow) (pop : List PopRow)
    (y : Option ℚ) (cs : Option (List Str)) (d : Option Str) (b : Bool) :
    ∀ e ∈ prepare_data crime ref pop y cs d b,
      (e.joined.Population = none -> e.taux_calcule = none)
      ∧ (∀ p : ℚ, e.joined.Population = some p -> p ≤ 0 -> e.taux_calcule = none)
      ∧ (∀ p n : ℚ, e.joined.Population = some p -> 0 < p ->
          e.joined.row.base.crime.nombre = some n ->
          e.taux_calcule = some (PVal.num (n / p * 1000)))
      ∧ (∀ p : ℚ, e.joined.Population = some p -> 0 < p ->
          e.joined.row.base.crime.nombre = none -> e.taux_calcule = none)
      ∧ (∀ v : PVal, e.taux_calcule = some v -> ∃ q : ℚ, v = PVal.num q) := by
  intro e he
  unfold prepare_data at he
  obtain ⟨j, hj, rfl⟩ := List.mem_map.1 he
  refine ⟨?_, ?_, ?_, ?_, ?_⟩
  · intro hp
    replace hp : j.Population = none := hp
    simp [addRate, maskRate, hp]
  · intro p hp hle
    replace hp : j.Population = some p := hp
    simp [addRate, maskRate, hp, hle]
  · intro p n hp hpos hn
    replace hp : j.Population = some p := hp
    replace hn : j.row.base.crime.nombre = some n := hn
    have hp0 : p ≠ 0 := hpos.ne'
    have hle : ¬ p ≤ 0 := not_le.2 hpos
    simp [addRate, maskRate, rawRate, pdDiv, pdMulPos, hp, hn, hle, hp0]
    rw [ratMul_eq, ratDiv_eq]
  · intro p hp hpos hn
    replace hp : j.Population = some p := hp
    replace hn : j.row.base.crime.nombre = none := hn
    simp [addRate, maskRate, rawRate, hp, hn]
  · intro v hv
    replace hv : maskRate j.Population (rawRate j.row.base.crime.nombre j.Population)
        = some v := hv
    rcases hp : j.Population with _ | p
    · simp [maskRate, hp] at hv
    · by_cases hle : p ≤ 0
      · simp [maskRate, hp, hle] at hv
      · rcases hn : j.row.base.crime.nombre with _ | n
        · simp [maskRate, rawRate, hp, hn, hle] at hv
        · have hp0 : p ≠ 0 := fun h0 => hle (le_of_eq h0)
          refine ⟨ratMul (ratDiv n p) 1000, ?_⟩
          simp [maskRate, rawRate, pdDiv, pdMulPos, hp, hn, hle, hp0] at hv
          exact hv.symm

theorem masked_rate_safe_witness :
    c1Row.taux_calcule = some (PVal.num ((5 : ℚ) / 2000 * 1000)) :=
  (masked_rate_safe [c1Crime] [] [c1Pop] none none none false c1Row (by decide)).2.2.1
    2000 5 rfl (by decide) rfl

/-- C1 counterexample: the app.py prepare_data computes the rate without
the mask, so a present zero population yields a positive-infinity rate,
not null, contradicting the claim for that cited variant. -/
theorem unmasked_rate_cex :
    (prepare_data_app1 [c1Crime] [] [c1CexPop]).map (fun r => (r.np.Population, r.taux))
      = [(some 0, some PVal.posInf)] := by decide

/-- C2 counterexample: the two-character string is not a five-character
commune code, yet derive_dep returns a value rather than null. -/
theorem derive_dep_short_input_cex :
    derive_dep (some ("75".toList)) = some ("75".toList) ∧ ("75".toList).length ≠ 5 := by
  decide

theorem length_five_exists {c : Str} (h : c.length = 5) :
    ∃ a b d e f, c = [a, b, d, e, f] := by
  rcases c with _ | ⟨a, c⟩
  · simp at h
  rcases c with _ | ⟨b, c⟩
  · simp at h
  rcases c with _ | ⟨d, c⟩
  · simp at h
  rcases c with _ | ⟨e, c⟩
  · simp at h
  rcases c with _ | ⟨f, c⟩
  · simp at h
  rcases c with _ | ⟨g, c⟩
  · exact ⟨a, b, d, e, f, rfl⟩
  · simp at h

/-- C2 amended: derive_dep returns null exactly on a non-string input or a
string shorter than two characters; on five-character codes it behaves as
the claim states: first three characters for codes starting 97 or 98, the
first two characters for Corsican codes 2A and 2B, and the first two
characters otherwise. -/
theorem derive_dep_amended :
    (∀ oc : Option Str,
      derive_dep oc = none ↔ (oc = none ∨ ∃ c : Str, oc = some c ∧ c.length < 2))
    ∧ (∀ c : Str, c.length = 5 →
        ((List.isPrefixOf ("97".toList) c = true ∨ List.isPrefixOf ("98".toList) c = true) →
          derive_dep (some c) = some (c.take 3))
        ∧ ((c.take 2 = ("2A".toList) ∨ c.take 2 = ("2B".toList)) →
          derive_dep (some c) = some (c.take 2))
        ∧ ((List.isPrefixOf ("97".toList) c = false ∧ List.isPrefixOf ("98".toList) c = false) →
          derive_dep (some c) = some (c.take 2))) := by
  constructor
  · intro oc
    rcases oc with _ | c
    · simp [derive_dep]
    · simp [derive_dep]
      split_ifs <;> simp_all
  · intro c hlen
    obtain ⟨a, b, d, e, f, rfl⟩ := length_five_exists hlen
    refine ⟨?_, ?_, ?_⟩
    · intro h97
      rcases h97 with h97 | h97
      · simp [List.isPrefixOf] at h97
        simp [derive_dep, List.isPrefixOf]
        tauto
      · simp [List.isPrefixOf] at h97
        simp [derive_dep, List.isPrefixOf]
        tauto
    · intro h2a
      have ha : a = '2' ∧ (b = 'A' ∨ b = 'B') := by
        rcases h2a with h | h <;> simp [List.take] at h <;> simp [h]
      obtain ⟨rfl, hb⟩ := ha
      rcases hb with rfl | rfl <;> simp [derive_dep]
    · intro hno
      simp [List.isPrefixOf] at hno
      simp [derive_dep, List.isPrefixOf]
      tauto

theorem derive_dep_amended_witness :
    derive_dep (some ("97411".toList)) = some (("97411".toList).take 3)
    ∧ derive_dep (some ("2A004".toList)) = some (("2A004".toList).take 2)
    ∧ derive_dep (some ("75056".toList)) = some (("75056".toList).take 2) :=
  ⟨(derive_dep_amended.2 ("97411".toList) (by decide)).1 (Or.inl (by decide)),
   (derive_dep_amended.2 ("2A004".toList) (by decide)).2.1 (Or.inl (by decide)),
   (derive_dep_amended.2 ("75056".toList) (by decide)).2.2 (by decide)⟩

/-- C4 counterexample: with department argument 97, the app-4 prefix-based
filter keeps a row whose derived department is 971, so that filter does not
select rows by equality of the derived department value. -/
theorem dep_prefix_filter_cex :
    (prepare_data_v4 [c4Crime] [] [] none none (some ("97".toList))).length = 1
    ∧ derive_dep (some ("97123".toList)) ≠ some ("97".toList) := by decide

theorem length_two_exists {l : Str} (h : l.length = 2) : ∃ x y, l = [x, y] := by
  rcases l with _ | ⟨x, l⟩
  · simp at h
  rcases l with _ | ⟨y, l⟩
  · simp at h
  rcases l with _ | ⟨z, l⟩
  · exact ⟨x, y, rfl⟩
  · simp at h

theorem length_three_exists {l : Str} (h : l.length = 3) : ∃ x y z, l = [x, y, z] := by
  rcases l with _ | ⟨x, l⟩
  · simp at h
  rcases l with _ | ⟨y, l⟩
  · simp at h
  rcases l with _ | ⟨z, l⟩
  · simp at h
  rcases l with _ | ⟨w, l⟩
  · exact ⟨x, y, z, rfl⟩
  · simp at h

set_option maxHeartbeats 1600000 in
/-- C4 amended: in the app-5 pipeline the department filter is equality on
the derived department: every output row under a department choice carries
exactly that derived department, computed by the deriver from its own
commune code.  The app-4 prefix filter agrees with derived-department
equality on five-character codes for every department argument of the
shape the deriver produces (two characters not starting 97 or 98, or three
characters starting 97 or 98), which covers Corsica and the overseas
codes, but not for other arguments such as the bare string 97. -/
theorem dep_filter_amended :
    (∀ (crime : List CrimeRow) (ref : List RefRow) (pop : List PopRow) (y : Option ℚ)
        (cs : Option (List Str)) (b : Bool) (ch : Char) (dtl : Str),
      ∀ e ∈ prepare_data crime ref pop y cs (some (ch :: dtl)) b,
        e.joined.row.DEP = some (ch :: dtl)
        ∧ e.joined.row.DEP = derive_dep e.joined.row.base.crime.CODGEO)
    ∧ (∀ dd c : Str, c.length = 5 →
        ((dd.length = 2 ∧ List.isPrefixOf ("97".toList) dd = false
            ∧ List.isPrefixOf ("98".toList) dd = false)
          ∨ (dd.length = 3 ∧ (List.isPrefixOf ("97".toList) dd = true
            ∨ List.isPrefixOf ("98".toList) dd = true))) →
        (v4DepPred dd (some c) = true ↔ derive_dep (some c) = some dd)) := by
  constructor
  · intro crime ref pop y cs b ch dtl e he
    unfold prepare_data at he
    obtain ⟨j, hj, rfl⟩ := List.mem_map.1 he
    obtain ⟨r, hr, op, rfl⟩ := mem_leftJoin hj
    have hdep : depPred (ch :: dtl) r = true := by
      unfold applyFilters condDepFilter at hr
      exact (List.mem_filter.1 hr).2
    have hr2 : r ∈ condCommuneFilter cs (condYearFilter b y
        ((mergeRef crime ref).map addDep)) := by
      unfold applyFilters condDepFilter at hr
      exact (List.mem_filter.1 hr).1
    have hr3 : r ∈ (mergeRef crime ref).map addDep :=
      mem_condYearFilter (mem_condCommuneFilter hr2)
    obtain ⟨n, hn, rfl⟩ := List.mem_map.1 hr3
    constructor
    · have := hdep
      unfold depPred at this
      exact beq_iff_eq.1 this
    · rfl
  · intro dd c hlen hshape
    obtain ⟨a, b, d0, e0, f0, rfl⟩ := length_five_exists hlen
    rcases hshape with ⟨h2, h97, h98⟩ | ⟨h3, h97⟩
    · obtain ⟨x, y2, rfl⟩ := length_two_exists h2
      simp [List.isPrefixOf] at h97 h98
      unfold v4DepPred derive_dep
      simp [List.isPrefixOf, List.take]
      split_ifs <;> simp_all <;> aesop
    · obtain ⟨x, y2, z2, rfl⟩ := length_three_exists h3
      simp [List.isPrefixOf] at h97
      unfold v4DepPred derive_dep
      simp [List.isPrefixOf, List.take]
      split_ifs <;> simp_all <;> aesop

theorem dep_filter_amended_witness :
    ((addRate ⟨addDep ⟨c4aCrime, none⟩, none⟩).joined.row.DEP = some ("2A".toList)
      ∧ (addRate ⟨addDep ⟨c4aCrime, none⟩, none⟩).joined.row.DEP
          = derive_dep (addRate ⟨addDep ⟨c4aCrime, none⟩,
              none⟩).joined.row.base.crime.CODGEO)
    ∧ (v4DepPred ("2A".toList) (some ("2A004".toList)) = true
        ↔ derive_dep (some ("2A004".toList)) = some ("2A".toList)) :=
  ⟨dep_filter_amended.1 [c4aCrime] [] [] none none false '2' ("A".toList)
      (addRate ⟨addDep ⟨c4aCrime, none⟩, none⟩) (by decide),
   dep_filter_amended.2 ("2A".toList) ("2A004".toList) (by decide) (Or.inl (by decide))⟩

theorem takeWhile_append_stop {p : Char -> Bool} :
    ∀ (ds : Str) (x : Char) (xs : Str), ds.all p = true -> p x = false ->
      (ds ++ x :: xs).takeWhile p = ds ∧ (ds ++ x :: xs).dropWhile p = x :: xs := by
  intro ds
  induction ds with
  | nil =>
    intro x xs _ hx
    simp [List.takeWhile, List.dropWhile, hx]
  | cons d ds ih =>
    intro x xs hall hx
    simp at hall
    obtain ⟨hd, hall⟩ := hall
    have := ih x xs (by simpa using hall) hx
    simp [List.takeWhile, List.dropWhile, hd, this.1, this.2]

theorem commaToDot_digits {l : Str} (h : l.all Char.isDigit = true) : commaToDot l = l := by
  induction l with
  | nil => rfl
  | cons c t ih =>
    simp at h
    have hc : c ≠ ',' := by
      intro hcc
      subst hcc
      simp at h
    simp [commaToDot] at ih ⊢
    exact ⟨fun hcc => absurd hcc hc, ih h.2⟩

theorem parseUnsigned_digits_dot {ds fs : Str} (hds : ds ≠ []) (hfs : fs ≠ [])
    (hda : ds.all Char.isDigit = true) (hfa : fs.all Char.isDigit = true) :
    parseUnsigned (ds ++ '.' :: fs)
      = some (mkRat (natOfDigits ds * 10 ^ fs.length + natOfDigits fs) (10 ^ fs.length)) := by
  have hspan := takeWhile_append_stop ds '.' fs hda (by decide)
  unfold parseUnsigned
  rw [hspan.2, hspan.1]
  simp [hds, hfs, hfa]

theorem parseNum_comma_decimal {ds fs : Str} (hds : ds ≠ []) (hfs : fs ≠ [])
    (hda : ds.all Char.isDigit = true) (hfa : fs.all Char.isDigit = true) :
    parseNum (commaToDot (ds ++ ',' :: fs))
      = some (mkRat (natOfDigits ds * 10 ^ fs.length + natOfDigits fs) (10 ^ fs.length)) := by
  have h1 : commaToDot (ds ++ ',' :: fs) = commaToDot ds ++ commaToDot (',' :: fs) := by
    simp [commaToDot]
  have h2 : commaToDot (',' :: fs) = '.' :: commaToDot fs := by
    simp [commaToDot]
  rw [h1, h2, commaToDot_digits hda, commaToDot_digits hfa]
  rcases ds with _ | ⟨d, ds2⟩
  · exact absurd rfl hds
  · have hd : d ≠ '-' := by
      intro hdd
      subst hdd
      simp at hda
    unfold parseNum
    rw [if_neg (by simpa using hd)]
    exact parseUnsigned_digits_dot hds hfs hda hfa

/-- C8: the crime loader keeps every row, coercing the year and count
fields with unparseable values becoming null, and a rate written with a
comma decimal separator is normalized to a period and parses to its
decimal value. -/
theorem load_crime_coercion (rows : List RawCrimeRow) (out : List CrimeRow)
    (h : load_crime_data rows = some out) :
    out.length = rows.length
    ∧ (∀ r ∈ rows, ∃ c ∈ out, c.CODGEO = r.CODGEO ∧ c.annee = r.annee.bind parseNum
        ∧ c.nombre = r.nombre.bind parseNum)
    ∧ (∀ ds fs : Str, ds ≠ [] → fs ≠ [] → ds.all Char.isDigit = true →
        fs.all Char.isDigit = true →
        parseNum (commaToDot (ds ++ ',' :: fs))
          = some (mkRat (natOfDigits ds * 10 ^ fs.length + natOfDigits fs)
              (10 ^ fs.length))) := by
  refine ⟨optMapList_length h, ?_, ?_⟩
  · intro r hr
    obtain ⟨c, hc, hcm⟩ := optMapList_mem h r hr
    refine ⟨c, hcm, ?_⟩
    rcases ht : r.taux with _ | srate
    · rw [loadCrimeRow, ht] at hc
      simp at hc
      rw [← hc]
      exact ⟨rfl, rfl, rfl⟩
    · rw [loadCrimeRow, ht] at hc
      simp at hc
      obtain ⟨q, _, hq⟩ := hc
      rw [← hq]
      exact ⟨rfl, rfl, rfl⟩
  · intro ds fs hds hfs hda hfa
    exact parseNum_comma_decimal hds hfs hda hfa

theorem load_crime_coercion_witness :
    ([c8Out] : List CrimeRow).length = ([c8Raw] : List RawCrimeRow).length
    ∧ parseNum (commaToDot (("3".toList) ++ ',' :: ("5".toList)))
        = some (mkRat (natOfDigits ("3".toList) * 10 ^ ("5".toList).length
            + natOfDigits ("5".toList)) (10 ^ ("5".toList).length)) :=
  ⟨(load_crime_coercion [c8Raw] [c8Out] (by decide)).1,
   (load_crime_coercion [c8Raw] [c8Out] (by decide)).2.2 ("3".toList) ("5".toList)
     (by decide) (by decide) (by decide) (by decide)⟩

/-- C10: the refresh utility coerces the year and count fields and then
drops every row on which either failed to parse: the rows it writes all
have present year and count, a coerced row is in the output exactly when
both fields parsed, and the loaders by contrast keep every row. -/
theorem refresh_drops_unparseable (rows : List RawURow) :
    (∀ r ∈ refresh_main rows, r.annee ≠ none ∧ r.nombre ≠ none)
    ∧ (∀ raw ∈ rows, (coerceURow raw ∈ refresh_main rows
        ↔ (raw.annee.bind parseNum).isSome ∧ (raw.nombre.bind parseNum).isSome))
    ∧ (∀ (rawRows : List RawCrimeRow) (out : List CrimeRow),
        load_crime_data rawRows = some out → out.length = rawRows.length) := by
  refine ⟨?_, ?_, ?_⟩
  · intro r hr
    have hp := (List.mem_filter.1 hr).2
    simp at hp
    exact ⟨Option.isSome_iff_ne_none.1 hp.1, Option.isSome_iff_ne_none.1 hp.2⟩
  · intro raw hraw
    constructor
    · intro hmem
      have hp := (List.mem_filter.1 hmem).2
      simpa [coerceURow] using hp
    · intro hps
      refine List.mem_filter.2 ⟨List.mem_map.2 ⟨raw, hraw, rfl⟩, ?_⟩
      simpa [coerceURow] using hps
  · intro rawRows out h
    exact optMapList_length h

theorem refresh_drops_unparseable_witness :
    coerceURow c10Bad ∈ refresh_main [c10Bad]
      ↔ ((c10Bad.annee.bind parseNum).isSome ∧ (c10Bad.nombre.bind parseNum).isSome) :=
  (refresh_drops_unparseable [c10Bad]).2.1 c10Bad (by decide)

theorem foldl_extrapStep_mem {maxY : Int} :
    ∀ (ys : List Int) (acc : List PopRow) (x : PopRow), x ∈ acc ->
      x ∈ ys.foldl (extrapStep maxY) acc := by
  intro ys
  induction ys with
  | nil =>
    intro acc x hx
    simpa using hx
  | cons y1 ys ih =>
    intro acc x hx
    rw [List.foldl_cons]
    exact ih _ x (List.mem_append_left _ hx)

theorem foldl_extrapStep_copy {maxY : Int} :
    ∀ (ys : List Int) (acc : List PopRow) (rec : PopRow) (y : Int), rec ∈ acc ->
      rec.annee = maxY -> y ∈ ys ->
      PopRow.mk rec.CODGEO y rec.Population ∈ ys.foldl (extrapStep maxY) acc := by
  intro ys
  induction ys with
  | nil =>
    intro acc rec y _ _ hy
    simp at hy
  | cons y1 ys ih =>
    intro acc rec y hrec hann hy
    rw [List.foldl_cons]
    rcases List.mem_cons.1 hy with rfl | hy2
    · apply foldl_extrapStep_mem
      unfold extrapStep
      refine List.mem_append.2 (Or.inr ?_)
      refine List.mem_map.2 ⟨rec, ?_, rfl⟩
      refine List.mem_filter.2 ⟨hrec, ?_⟩
      simp [hann]
    · exact ih (extrapStep maxY acc y1) rec y (List.mem_append_left _ hrec) hann hy2

theorem rangeInts_mem {a b y : Int} (h1 : a ≤ y) (h2 : y < b) : y ∈ rangeInts a b := by
  have h3 : y = a + Int.ofNat (y - a).toNat := by
    have h4 : Int.ofNat (y - a).toNat = ((y - a).toNat : Int) := rfl
    rw [h4]
    omega
  rw [h3]
  unfold rangeInts
  have hmem : (y - a).toNat ∈ List.range (b - a).toNat := List.mem_range.2 (by omega)
  exact List.mem_map_of_mem _ hmem

theorem extractPYear_two_digits {d1 d2 : Char} (h1 : d1.isDigit = true)
    (h2 : d2.isDigit = true) :
    extractPYear ('p' :: d1 :: d2 :: ("_pop".toList)) = some (natOfDigits [d1, d2]) := by
  unfold extractPYear matchPAt
  simp [List.takeWhile, List.dropWhile, h1, h2]

/-- C7: in the wide population loader, every kept column whose name is the
letter p followed by two digits and the suffix _pop yields, for every
source row, a Population Record with year 2000 plus the two-digit reading,
zero-padded code and coerced value; and for every year strictly after the
last available year and before 2025 the loader adds a copy of each record
of the last available year relabelled to that year. -/
theorem load_population_wide (cols : List Str) (rows : List WideRow) (out : List PopRow)
    (h : load_population_local cols rows = some out) :
    (∀ r ∈ rows, ∀ (col : Str) (v : Option Str), (col, v) ∈ cols.zip r.values →
      ∀ d1 d2 : Char, col = 'p' :: d1 :: d2 :: ("_pop".toList) → d1.isDigit = true →
        d2.isDigit = true →
        PopRow.mk (r.codgeo.map (zfill 5)) (((2000 + natOfDigits [d1, d2] : Nat) : Int))
          (v.bind parseNum) ∈ out)
    ∧ (∀ parsed : List PopRow, meltParsed cols rows = some parsed →
        ∀ y : Int, maxAnnee parsed < y → y < 2025 →
          ∀ rec ∈ parsed, rec.annee = maxAnnee parsed →
            PopRow.mk rec.CODGEO y rec.Population ∈ out) := by
  unfold load_population_local at h
  rcases hm : meltParsed cols rows with _ | ml
  · rw [hm] at h
    simp at h
  rcases ml with _ | ⟨ph, pt⟩
  · rw [hm] at h
    simp at h
  rw [hm] at h
  simp at h
  constructor
  · intro r hr col v hzip d1 d2 hcol hd1 hd2
    have hpcol : pCol col = true := by
      subst hcol
      rfl
    have htr : (r.codgeo, col, v) ∈ meltWide cols rows := by
      unfold meltWide
      refine List.mem_flatMap.2 ⟨r, hr, ?_⟩
      exact List.mem_map.2 ⟨(col, v), List.mem_filter.2 ⟨hzip, hpcol⟩, rfl⟩
    obtain ⟨prow, hpe, hpm⟩ := optMapList_mem hm _ htr
    have hex : extractPYear col = some (natOfDigits [d1, d2]) := by
      subst hcol
      exact extractPYear_two_digits hd1 hd2
    simp [hex] at hpe
    rw [← h]
    have hgoal : PopRow.mk (r.codgeo.map (zfill 5))
        (((2000 + natOfDigits [d1, d2] : Nat) : Int)) (v.bind parseNum) = prow := by
      rw [← hpe]
      simp
    rw [hgoal]
    exact foldl_extrapStep_mem _ _ prow hpm
  · intro parsed hparsed y hy1 hy2 rec hrec hann
    have hml : parsed = ph :: pt := by
      have hcomp : some parsed = some (ph :: pt) := by
        rw [← hparsed]
      exact Option.some.inj hcomp
    subst hml
    rw [← h]
    exact foldl_extrapStep_copy _ _ rec y hrec hann (rangeInts_mem (by omega) hy2)

theorem load_population_wide_witness :
    PopRow.mk (some ("00001".toList)) 2023 (some (mkRat 100 1)) ∈ c7Out
    ∧ PopRow.mk (some ("00001".toList)) 2024 (some (mkRat 100 1)) ∈ c7Out :=
  ⟨(load_population_wide c7Cols c7Rows c7Out (by decide)).1
      ⟨some ("1".toList), none, [some ("100".toList)]⟩ (by decide)
      ("p23_pop".toList) (some ("100".toList)) (by decide) '2' '3' rfl (by decide)
      (by decide),
   (load_population_wide c7Cols c7Rows c7Out (by decide)).2
      [⟨some ("00001".toList), 2023, some (mkRat 100 1)⟩] (by decide) 2024 (by decide)
      (by decide) ⟨some ("00001".toList), 2023, some (mkRat 100 1)⟩ (by decide) (by decide)⟩

example : derive_dep (some ("75056".toList)) = some ("75".toList) := by decide

example : derive_dep (some ("97411".toList)) = some ("974".toList) := by decide

example : derive_dep (some ("2A004".toList)) = some ("2A".toList) := by decide

example : derive_dep (some ("1".toList)) = none := by decide

example : derive_dep (some ("75".toList)) = some ("75".toList) := by decide

example : parseNum ("12".toList) = some 12 := by decide

example : parseNum ("3.5".toList) = some (mkRat 7 2) := by decide

example : parseNum ("ab".toList) = none := by decide

example : parseNum (commaToDot ("3,5".toList)) = some (mkRat 7 2) := by decide
